import Mathlib

/-!
Verification of the `test_utils` Conan recipe (`conanfile.py`).

The recipe declares package metadata and two lifecycle callbacks:

* `package`, which runs `copy(self, "*.h", self.source_folder,
  self.package_folder)`, copying every file whose relative path matches the
  fnmatch-style glob `"*.h"` from the source folder into the package folder,
  preserving relative paths and byte content;
* `package_info`, which sets `cpp_info.includedirs = ["include"]`,
  `cpp_info.bindirs = []` and `cpp_info.libdirs = []`.

The embedding models a filesystem tree as a finite-support map from relative
paths (strings, with `/` separators) to optional byte contents, and models
the pattern matching `conan.tools.files.copy` performs directly: the copy
helper defaults `ignore_case=True`, lowercasing both the pattern and each
relative path before matching them with Python's `fnmatch.fnmatchcase`, in
which `*` matches any sequence of characters, including `/`, and `?` matches
any single character.
-/

/-- Python's `fnmatch.fnmatchcase` glob matching on explicit character
lists: `*` matches any (possibly empty) sequence of characters including the
path separator, `?` matches exactly one character, and any other pattern
character matches itself literally, with no case normalization of its own
(the patterns appearing in this recipe use no `[...]` character classes). A
leading `*` matches exactly when the rest of the pattern matches some suffix
of the string. -/
def globMatch : List Char → List Char → Bool
  | [], s => s.isEmpty
  | p :: ps, s =>
    if p = '*' then s.tails.any (fun t => globMatch ps t)
    else if p = '?' then
      match s with
      | [] => false
      | _ :: cs => globMatch ps cs
    else
      match s with
      | [] => false
      | c :: cs => (p == c) && globMatch ps cs

/-- `fnmatch pattern path`: the match `conan.tools.files.copy` performs with
its default `ignore_case=True` — both the glob pattern and the relative path
are lowercased, then matched with `fnmatch.fnmatchcase`, so matching is
case-insensitive (and the path separator gets no special treatment). -/
def fnmatch (pattern path : String) : Bool :=
  globMatch (pattern.toList.map Char.toLower) (path.toList.map Char.toLower)

/-- A filesystem tree: a map from relative paths to the byte content of the
file stored there, `none` when no file exists at that path. -/
def FS : Type := String → Option (List Nat)

/-- The empty tree: a freshly created folder with no files in it. -/
def emptyFS : FS := fun _ => none

/-- `conan.tools.files.copy pattern src dst`: every file under `src` whose
relative path matches `pattern` (case-insensitively, per the helper's
default `ignore_case=True`) is copied into `dst` at the same relative path
with identical content, overwriting any file already there; all other paths
of `dst` are left untouched. -/
def copy (pattern : String) (src dst : FS) : FS := fun p =>
  match src p with
  | some c => if fnmatch pattern p then some c else dst p
  | none => dst p

/-- The world visible to the recipe callbacks: the source folder (populated
by the external tool from `exports_sources`), the package folder, and every
path outside both of those roots. -/
structure World where
  sourceFolder : FS
  packageFolder : FS
  outsideTree : FS

/-- The directory lists of `self.cpp_info` that the recipe assigns. -/
structure CppInfo where
  includedirs : List String
  bindirs : List String
  libdirs : List String

namespace TestUtilsConan

/-- `name = "test_utils"`. -/
def name : String := "test_utils"

/-- `version = "1.0"`. -/
def version : String := "1.0"

/-- `license = "MIT"` (optional class attribute, absent means `None`). -/
def license : Option String := some "MIT"

/-- `scm = {"type": "git", "url": ..., "revision": "auto"}` (optional class
attribute, absent means `None`). -/
def scm : Option (List (String × String)) :=
  some [("type", "git"),
        ("url", "https://github.com/nick-a-schneider/test_utils.git"),
        ("revision", "auto")]

/-- `package_type = "header-library"`. -/
def package_type : String := "header-library"

/-- `exports_sources = "include/*"`. -/
def exports_sources : String := "include/*"

/-- `no_copy_source = True`. -/
def no_copy_source : Bool := true

/-- `def package(self): copy(self, "*.h", self.source_folder,
self.package_folder)` — the only effect is the copy into the package
folder. -/
def package (w : World) : World :=
  { w with packageFolder := copy "*.h" w.sourceFolder w.packageFolder }

/-- `def package_info(self)`: assigns `includedirs = ["include"]`,
`bindirs = []`, `libdirs = []`; reads nothing from the world. -/
def package_info (_w : World) (info : CppInfo) : CppInfo :=
  { info with includedirs := ["include"], bindirs := [], libdirs := [] }

end TestUtilsConan

/-- The effect of the `exports_sources = "include/*"` declaration: the
external tool populates the source folder with exactly the files of the
repository tree whose relative path matches `"include/*"`, through the same
case-insensitive copy machinery. -/
def exportedTree (repo : FS) : FS := fun p =>
  if fnmatch TestUtilsConan.exports_sources p then repo p else none

namespace TestUtilsConanDup

/-- Modelled from the spec: the repository ships a second, near-identical
copy of the recipe that is not present under `src/`; per the spec it omits
the `license` and source-control (`scm`) metadata and is otherwise the same
recipe. Absent optional attribute. -/
def license : Option String := none

/-- Modelled from the spec: the second recipe copy omits the source-control
descriptor. Absent optional attribute. -/
def scm : Option (List (String × String)) := none

/-- Modelled from the spec: the second recipe copy declares the same package
name. -/
def name : String := "test_utils"

/-- Modelled from the spec: the second recipe copy declares the same
version. -/
def version : String := "1.0"

/-- Modelled from the spec: the second recipe copy declares the same export
pattern. -/
def exports_sources : String := "include/*"

/-- Modelled from the spec: the second recipe copy has the same `package`
callback, `copy(self, "*.h", self.source_folder, self.package_folder)`. -/
def package (w : World) : World :=
  { w with packageFolder := copy "*.h" w.sourceFolder w.packageFolder }

/-- Modelled from the spec: the second recipe copy has the same
`package_info` callback. -/
def package_info (_w : World) (info : CppInfo) : CppInfo :=
  { info with includedirs := ["include"], bindirs := [], libdirs := [] }

end TestUtilsConanDup

/- Helper lemmas about the glob matcher. -/

/-- A `*` at the head of the pattern matches exactly when some suffix of the
string matches the rest of the pattern. -/
theorem globMatch_star_iff (ps : List Char) (s : List Char) :
    globMatch ('*' :: ps) s = true ↔ ∃ t, t <:+ s ∧ globMatch ps t = true := by
  simp [globMatch, List.any_eq_true, List.mem_tails]

/-- The literal pattern `.h` matches exactly the two-character string `.h`. -/
theorem globMatch_dot_h (t : List Char) :
    globMatch ['.', 'h'] t = true ↔ t = ['.', 'h'] := by
  rcases t with _ | ⟨a, _ | ⟨b, _ | ⟨c, r⟩⟩⟩ <;>
    simp [globMatch, @eq_comm Char]

/-- The copy call's match against the glob `*.h` succeeds exactly when the
lowercased relative path ends in the two characters `.h` — at any depth,
since `*` also matches `/`, and case-insensitively, since `ignore_case`
defaults to true. -/
theorem fnmatch_star_h (s : String) :
    fnmatch "*.h" s = true ↔ ['.', 'h'] <:+ s.toList.map Char.toLower := by
  have hpat : ("*.h").toList.map Char.toLower = '*' :: ['.', 'h'] := by decide
  constructor
  · intro h
    have h2 : globMatch ('*' :: ['.', 'h']) (s.toList.map Char.toLower) = true := by
      simpa [fnmatch, hpat] using h
    rcases (globMatch_star_iff _ _).mp h2 with ⟨t, ht, hm⟩
    rcases (globMatch_dot_h t).mp hm with rfl
    exact ht
  · intro h
    have h2 : globMatch ('*' :: ['.', 'h']) (s.toList.map Char.toLower) = true :=
      (globMatch_star_iff _ _).mpr ⟨['.', 'h'], h, (globMatch_dot_h _).mpr rfl⟩
    simpa [fnmatch, hpat] using h2

/-- Lowercasing a path preserves a `.h` suffix, as those two characters are
already lowercase. -/
theorem lower_suffix_of_suffix (p : String) (h : ['.', 'h'] <:+ p.toList) :
    ['.', 'h'] <:+ p.toList.map Char.toLower := by
  rcases h with ⟨t, ht⟩
  refine ⟨t.map Char.toLower, ?_⟩
  have hlit : List.map Char.toLower ['.', 'h'] = ['.', 'h'] := by decide
  rw [← ht, List.map_append, hlit]

/- Helper lemmas about `copy`. -/

/-- A source file whose path matches the pattern arrives in the destination
with identical content. -/
theorem copy_matched (pattern : String) (src dst : FS) (p : String)
    (c : List Nat) (hm : fnmatch pattern p = true) (hs : src p = some c) :
    copy pattern src dst p = some c := by
  simp [copy, hs, hm]

/-- A path whose name does not match the pattern is left exactly as it was
in the destination. -/
theorem copy_not_matched (pattern : String) (src dst : FS) (p : String)
    (hm : fnmatch pattern p = false) : copy pattern src dst p = dst p := by
  unfold copy
  cases hs : src p with
  | none => rfl
  | some c => simp [hm]

/-- A path with no source file is left exactly as it was in the
destination. -/
theorem copy_src_none (pattern : String) (src dst : FS) (p : String)
    (hs : src p = none) : copy pattern src dst p = dst p := by
  simp [copy, hs]

/-- Copying the same source over an already-copied destination changes
nothing. -/
theorem copy_self_idem (pattern : String) (src dst : FS) :
    copy pattern src (copy pattern src dst) = copy pattern src dst := by
  funext p
  unfold copy
  cases hs : src p with
  | none => rfl
  | some c =>
    cases hm : fnmatch pattern p with
    | true => simp [hm]
    | false => simp [hm, hs]

/- Sample trees used by the witnesses. -/

/-- Sample byte content of a header file. -/
def sampleContent : List Nat := [35, 112, 114, 97, 103, 109, 97]

/-- A sample source folder holding one header and one non-header file. -/
def sampleSrc : FS := fun p =>
  if p = "include/util.h" then some sampleContent
  else if p = "include/notes.txt" then some [42] else none

/-- A sample world with a freshly created (empty) package folder. -/
def sampleWorld : World :=
  { sourceFolder := sampleSrc, packageFolder := emptyFS, outsideTree := emptyFS }

/-- A sample repository tree, fed through `exportedTree`. -/
def sampleRepo : FS := fun p =>
  if p = "include/util.h" then some sampleContent
  else if p = "README.md" then some [35] else none

/-- A sample source folder holding a header outside any `include/`
subdirectory, at nested depth. -/
def deepSrc : FS := fun p =>
  if p = "src/deep/x.h" then some [1] else none

/-- A sample world whose source folder is `deepSrc`. -/
def deepWorld : World :=
  { sourceFolder := deepSrc, packageFolder := emptyFS, outsideTree := emptyFS }

/- Claim theorems. -/

/-- C1: For every file under the exported source path whose name has a
header-file extension (here `.h`, the extension the recipe's glob `"*.h"`
selects), after the `package` operation runs, the file exists at the same
relative path under the package root with byte-identical content: the copy
performs no transformation and no renaming. -/
theorem c1_copy_fidelity (w : World) (p : String) (c : List Nat)
    (hext : ['.', 'h'] <:+ p.toList) (hsrc : w.sourceFolder p = some c) :
    (TestUtilsConan.package w).packageFolder p = some c :=
  copy_matched "*.h" w.sourceFolder w.packageFolder p c
    ((fnmatch_star_h p).mpr (lower_suffix_of_suffix p hext)) hsrc

/-- Witness for C1 at a concrete world: the header `include/util.h` with its
sample byte content arrives unchanged in the package folder. -/
theorem c1_copy_fidelity_witness :
    (TestUtilsConan.package sampleWorld).packageFolder "include/util.h"
      = some sampleContent :=
  c1_copy_fidelity sampleWorld "include/util.h" sampleContent
    (by decide) (by decide)

/-- C2: starting from a freshly created (empty) package folder, with the
source folder populated by the `exports_sources` declaration from the
repository tree, the set of files present under the package root after
`package` is exactly the set of files of the exported tree matching the glob
`"*.h"` (case-insensitively, per the copy helper's default
`ignore_case=True`) — no more, no fewer. -/
theorem c2_exact_file_set (repo : FS) (w : World)
    (hsrc : w.sourceFolder = exportedTree repo)
    (hempty : ∀ q, w.packageFolder q = none) (p : String) :
    ((TestUtilsConan.package w).packageFolder p).isSome
      ↔ fnmatch "*.h" p = true ∧ (exportedTree repo p).isSome := by
  have hpk : (TestUtilsConan.package w).packageFolder p
      = copy "*.h" w.sourceFolder w.packageFolder p := rfl
  rw [hpk, hsrc]
  cases hs : exportedTree repo p with
  | none => simp [copy, hs, hempty p]
  | some c =>
    cases hm : fnmatch "*.h" p with
    | true => simp [copy, hs, hm]
    | false => simp [copy, hs, hm, hempty p]

/-- Witness for C2 at a concrete world and path: the non-header
`README.md` of the sample repository is absent from the package root. -/
theorem c2_exact_file_set_witness :
    ((TestUtilsConan.package
        { sourceFolder := exportedTree sampleRepo, packageFolder := emptyFS,
          outsideTree := emptyFS }).packageFolder "README.md").isSome
      ↔ fnmatch "*.h" "README.md" = true
        ∧ (exportedTree sampleRepo "README.md").isSome :=
  c2_exact_file_set sampleRepo _ rfl (fun _ => rfl) "README.md"

/-- C3: for every file under the exported source path whose name does not
match the copy call's header pattern — its lowercased path does not end in
`.h`, matching being case-insensitive per the copy helper's default
`ignore_case=True` — no file exists at the corresponding relative path under
a freshly created package root after `package` runs. -/
theorem c3_selection_precision (w : World) (p : String)
    (hempty : ∀ q, w.packageFolder q = none)
    (hnot : ¬ ['.', 'h'] <:+ p.toList.map Char.toLower) :
    (TestUtilsConan.package w).packageFolder p = none := by
  have hm : fnmatch "*.h" p = false := by
    cases hm : fnmatch "*.h" p with
    | false => rfl
    | true => exact absurd ((fnmatch_star_h p).mp hm) hnot
  have hpk : (TestUtilsConan.package w).packageFolder p = w.packageFolder p :=
    copy_not_matched "*.h" w.sourceFolder w.packageFolder p hm
  rw [hpk]
  exact hempty p

/-- Witness for C3 at a concrete world: the non-header file
`include/notes.txt` present in the source folder is not packaged. -/
theorem c3_selection_precision_witness :
    (TestUtilsConan.package sampleWorld).packageFolder "include/notes.txt"
      = none :=
  c3_selection_precision sampleWorld "include/notes.txt" (fun _ => rfl)
    (by decide)

/-- C4: the include-directory list reported by `package_info` is exactly the
one-element list `["include"]`, present for every world and every incoming
`cpp_info`, independent of how many header files exist in the package. -/
theorem c4_single_includedir (w : World) (info : CppInfo) :
    (TestUtilsConan.package_info w info).includedirs = ["include"] ∧
    (TestUtilsConan.package_info w info).includedirs.length = 1 :=
  ⟨rfl, rfl⟩

/-- C5: the binary-directory list and the library-directory list reported by
`package_info` are both empty, for every input state. -/
theorem c5_empty_bin_lib_dirs (w : World) (info : CppInfo) :
    (TestUtilsConan.package_info w info).bindirs = [] ∧
    (TestUtilsConan.package_info w info).libdirs = [] :=
  ⟨rfl, rfl⟩

/-- C6: running the `package` operation twice yields the identical output
tree that a single run yields — the operation is idempotent, on every world
(same source tree, any initial package root). -/
theorem c6_package_idempotent (w : World) :
    TestUtilsConan.package (TestUtilsConan.package w) = TestUtilsConan.package w := by
  unfold TestUtilsConan.package
  simp [copy_self_idem]

/-- C7: the only effect of `package` is on the package folder: the source
folder and every path outside the two roots are unchanged. -/
theorem c7_frame_outside_package_root (w : World) :
    (TestUtilsConan.package w).sourceFolder = w.sourceFolder ∧
    (TestUtilsConan.package w).outsideTree = w.outsideTree :=
  ⟨rfl, rfl⟩

/-- C8: the repository ships two near-identical copies of the recipe that
differ only in minor metadata — the duplicate (modelled from the spec, as
only one copy is present in the sources) omits the license and
source-control metadata — and the two are equivalent in packaging
behaviour: identical `package` and `package_info` callbacks and identical
name, version and export pattern. -/
theorem c8_duplicate_recipe_equivalent :
    TestUtilsConanDup.license = none ∧ TestUtilsConan.license = some "MIT" ∧
    TestUtilsConanDup.scm = none ∧ TestUtilsConan.scm ≠ none ∧
    TestUtilsConanDup.name = TestUtilsConan.name ∧
    TestUtilsConanDup.version = TestUtilsConan.version ∧
    TestUtilsConanDup.exports_sources = TestUtilsConan.exports_sources ∧
    (∀ w, TestUtilsConanDup.package w = TestUtilsConan.package w) ∧
    (∀ w info, TestUtilsConanDup.package_info w info
      = TestUtilsConan.package_info w info) := by
  refine ⟨rfl, rfl, rfl, ?_, rfl, rfl, rfl, fun _ => rfl, fun _ _ => rfl⟩
  simp [TestUtilsConan.scm]

/-- C9: `package_info` is a constant function: over any two worlds and any
two incoming `cpp_info` states it reports the same include-directory list
`["include"]`, the same empty binary-directory list and the same empty
library-directory list, reading no input at all. -/
theorem c9_package_info_constant (w₁ w₂ : World) (i₁ i₂ : CppInfo) :
    TestUtilsConan.package_info w₁ i₁ = TestUtilsConan.package_info w₂ i₂ ∧
    (TestUtilsConan.package_info w₁ i₁).includedirs = ["include"] ∧
    (TestUtilsConan.package_info w₁ i₁).bindirs = [] ∧
    (TestUtilsConan.package_info w₁ i₁).libdirs = [] :=
  ⟨rfl, rfl, rfl, rfl⟩

/-- C10: the copy call selects files by the pattern `"*.h"` alone, applied
as the copy helper applies it (case-insensitively, `ignore_case=True` being
its default): a path is selected exactly when its lowercased form ends in
`.h` — so an uppercase `.H` file is also selected, while `.hpp` and `.hh`
files are never copied — a matching file is copied from any depth under the
source root, even outside the `include/` subdirectory, and the restriction
to `include/` comes solely from the `exports_sources` declaration, not from
the copy call. -/
theorem c10_glob_selection_semantics :
    (∀ s : String, fnmatch "*.h" s = true ↔ ['.', 'h'] <:+ s.toList.map Char.toLower) ∧
    fnmatch "*.h" "a/b/c.h" = true ∧
    fnmatch "*.h" "include/X.H" = true ∧
    fnmatch "*.h" "include/x.hpp" = false ∧
    fnmatch "*.h" "x.hh" = false ∧
    TestUtilsConan.exports_sources = "include/*" ∧
    (∀ (w : World) (p : String) (c : List Nat), fnmatch "*.h" p = true →
      w.sourceFolder p = some c →
      (TestUtilsConan.package w).packageFolder p = some c) := by
  refine ⟨fnmatch_star_h, by decide, by decide, by decide, by decide, rfl, ?_⟩
  intro w p c hm hsrc
  exact copy_matched "*.h" w.sourceFolder w.packageFolder p c hm hsrc

/-- Witness for C10 at a concrete world: the header `src/deep/x.h`, nested
and outside any `include/` subdirectory, is copied by the package
operation. -/
theorem c10_glob_selection_semantics_witness :
    (TestUtilsConan.package deepWorld).packageFolder "src/deep/x.h"
      = some [1] :=
  c10_glob_selection_semantics.2.2.2.2.2.2 deepWorld "src/deep/x.h" [1]
    (by decide) (by decide)
